import Mathlib

/-!
Verification development for the `icn-node` crate of
InterCooperative-Network/icn-dev-node.

The Rust sources are shallowly embedded: strings are `List Char` (so that
`str::split('_')`, `ends_with`, `contains` become provable list functions),
the filesystem is an association list from paths to contents, the global
`STATE` mutex is modelled explicitly where lock discipline matters, and the
opaque external CoVM engine / md5 / uuid / clock are oracles threaded through
a `World` record.  Every definition mirrors a specific function of
`src/crates/icn-node/src/{state,queue,executor,dag,federation,error}.rs`.
-/

namespace Icn

/-- Characters of a Rust `String`/`&str`. -/
abbrev Str := List Char

/-- Coerce a Lean string literal to the `List Char` model. -/
def str (s : String) : Str := s.toList

/-- Model of Rust `str::split(sep)` collected into a `Vec`: splitting on a
single separator character, keeping empty segments (as Rust does). -/
def splitChar (c : Char) : Str → List Str
  | [] => [[]]
  | x :: xs =>
    let rest := splitChar c xs
    if x = c then [] :: rest
    else
      match rest with
      | [] => [[x]]
      | g :: gs => (x :: g) :: gs

/-- Model of Rust `str::ends_with(pat)`. -/
def endsWith (s pat : Str) : Bool := decide (pat <:+ s)

/-- Model of Rust `str::contains(pat)` for a substring pattern. -/
def containsSub (s pat : Str) : Bool := decide (pat <:+: s)

/-- Model of Rust `str::contains(c)` for a single-character pattern. -/
def hasChar (s : Str) (c : Char) : Bool := decide (c ∈ s)

/-- Error kinds of `error.rs` (`NodeError`); message payloads are kept. -/
inductive NodeError where
  | Io (msg : Str)
  | Json (msg : Str)
  | Http (msg : Str)
  | State (msg : Str)
  | Queue (msg : Str)
  | Execution (msg : Str)
  | Dag (msg : Str)
  | Federation (msg : Str)
  | Validation (msg : Str)
  | ShellCommand (msg : Str) (code : Int)
  | Config (msg : Str)
  deriving DecidableEq

/-- `state.rs` `VertexEntry` (timestamps modelled as `Nat` ticks). -/
structure VertexEntry where
  id : Str
  proposal_id : Str
  timestamp : Nat
  hash : Str
  deriving DecidableEq

/-- `state.rs` `NodeState`: the single persisted document. -/
structure NodeState where
  node_id : Str
  initialized_at : Nat
  last_updated : Nat
  last_executed_block : Nat
  last_proposal_id : Nat
  executed_proposals : List Str
  active_connection : Str
  peers : List Str
  system_version : Str
  dag_vertices : List VertexEntry
  deriving DecidableEq

/-!  Lock-discipline model of `state.rs`.

The global `STATE: Lazy<Arc<Mutex<NodeState>>>` is a non-reentrant
`std::sync::Mutex`.  `held` records whether the current thread already holds
its guard; re-acquiring a `std::sync::Mutex` the current thread already holds
never succeeds (it deadlocks or panics), modelled as `none`.  A `MutexGuard`
is dropped when the function that acquired it returns.  -/

structure LockedState where
  held : Bool
  st : NodeState
  deriving DecidableEq

/-- `state.rs:116-140` `save_state`: locks `STATE`, stamps `last_updated`,
backs up and rewrites the state file, and drops its guard on return. -/
def save_state_m (now : Nat) (s : LockedState) : Option LockedState :=
  if s.held then none
  else some { held := false, st := { s.st with last_updated := now } }

/-- `state.rs:175-197` `set`: locks `STATE` (line 176), applies the
serialize/insert-key/deserialize round trip (abstracted as `upd`), then calls
`save_state()` (line 194) while its own guard is still live. -/
def set_m (upd : NodeState → NodeState) (now : Nat) (s : LockedState) :
    Option LockedState :=
  if s.held then none
  else
    let s1 : LockedState := { held := true, st := upd s.st }
    match save_state_m now s1 with
    | none => none
    | some s2 => some { s2 with held := false }

/-- `state.rs:200-212` `add_vertex`: locks `STATE` (line 201), pushes the
vertex, writes the dag log line, then calls `save_state()` (line 209) while
its own guard is still live. -/
def add_vertex_m (now : Nat) (v : VertexEntry) (s : LockedState) :
    Option LockedState :=
  if s.held then none
  else
    let s1 : LockedState :=
      { held := true, st := { s.st with dag_vertices := s.st.dag_vertices ++ [v] } }
    match save_state_m now s1 with
    | none => none
    | some s2 => some { s2 with held := false }

/-- `state.rs:247-258` `add_executed_proposal`: locks `STATE` (line 248),
pushes the id if absent, then calls `save_state()` (line 255) while its own
guard is still live. -/
def add_executed_proposal_m (pid : Str) (now : Nat) (s : LockedState) :
    Option LockedState :=
  if s.held then none
  else
    let s1 : LockedState :=
      { held := true,
        st :=
          if s.st.executed_proposals.contains pid then s.st
          else { s.st with executed_proposals := s.st.executed_proposals ++ [pid] } }
    match save_state_m now s1 with
    | none => none
    | some s2 => some { s2 with held := false }

/-!  Dynamic key lookup model of `state.rs::get` (used by `dag.rs`).  -/

/-- JSON values that `serde_json::to_value(&NodeState)` produces for the
individual fields of `NodeState` (a string, an integer, an array of strings,
or an array of vertex objects). -/
inductive JsonVal where
  | jstr (s : Str)
  | jnat (n : Nat)
  | jarrStr (l : List Str)
  | jarrVert (l : List VertexEntry)
  deriving DecidableEq

/-- The serialized `NodeState` document as a key/value object, field names
exactly as `serde` derives them from `state.rs:17-29`. -/
def stateToValue (s : NodeState) : List (Str × JsonVal) :=
  [ (str "node_id", .jstr s.node_id),
    (str "initialized", .jnat s.initialized_at),
    (str "last_updated", .jnat s.last_updated),
    (str "last_executed_block", .jnat s.last_executed_block),
    (str "last_proposal_id", .jnat s.last_proposal_id),
    (str "executed_proposals", .jarrStr s.executed_proposals),
    (str "active_connection", .jstr s.active_connection),
    (str "peers", .jarrStr s.peers),
    (str "system_version", .jstr s.system_version),
    (str "dag_vertices", .jarrVert s.dag_vertices) ]

/-- Lookup of a key in the serialized object (`value.get(key)`). -/
def lookupKV : List (Str × JsonVal) → Str → Option JsonVal
  | [], _ => none
  | (k, v) :: rest, key => if k = key then some v else lookupKV rest key

/-- `state.rs:159-172` `get` up to the typed deserialization step: serialize
the whole state, fetch `key`, or fail with a `State` error. -/
def state_get (s : NodeState) (key : Str) : Except NodeError JsonVal :=
  match lookupKV (stateToValue s) key with
  | some v => .ok v
  | none => .error (.State (str "Key not found in state: " ++ key))

/-- Deserializing one of the field values back into a whole `NodeState`
(`serde_json::from_value::<NodeState>`): every value `stateToValue` yields is
a string, integer or array, never a full state object, so this always fails. -/
def valueToNodeState (_v : JsonVal) : Except NodeError NodeState :=
  .error (.State (str "Failed to deserialize state value"))

/-- `dag.rs:82-85` `get_all_vertices`: `state::get::<NodeState>("state")`
followed by projecting `dag_vertices`. -/
def get_all_vertices (s : NodeState) : Except NodeError (List VertexEntry) :=
  match state_get s (str "state") with
  | .error e => .error e
  | .ok v =>
    match valueToNodeState v with
    | .error e => .error e
    | .ok st => .ok st.dag_vertices

/-- `dag.rs:88-95` `get_vertex`: find a vertex by id among
`get_all_vertices`, else a `Dag`-kind not-found error. -/
def get_vertex (s : NodeState) (id : Str) : Except NodeError VertexEntry :=
  match get_all_vertices s with
  | .error e => .error e
  | .ok vs =>
    match vs.find? (fun v => decide (v.id = id)) with
    | some v => .ok v
    | none => .error (.Dag (str "Vertex not found: " ++ id))

/-!  Filesystem model.

A path is a directory (`~/.icn/queue`, `~/.icn/executed`, …) plus a file
name; the filesystem is a finite association list from paths to file
contents, in directory-enumeration order.  -/

structure FPath where
  dir : Str
  name : Str
  deriving DecidableEq

/-- Queue directory `~/.icn/queue` (`queue.rs:212-220`). -/
def queueDir : Str := str "queue"

/-- Executed-archive directory `~/.icn/executed` (`queue.rs:223-231`). -/
def executedDir : Str := str "executed"

abbrev Fs := List (FPath × Str)

/-- Read a file's contents (`fs::read_to_string` / existence checks). -/
def fsRead : Fs → FPath → Option Str
  | [], _ => none
  | (q, c) :: rest, p => if q = p then some c else fsRead rest p

/-- Existence check (`Path::exists`). -/
def fsExists (fs : Fs) (p : FPath) : Bool := (fsRead fs p).isSome

/-- Remove every entry at path `p`. -/
def fsRemove : Fs → FPath → Fs
  | [], _ => []
  | (q, c) :: rest, p =>
    if q = p then fsRemove rest p else (q, c) :: fsRemove rest p

/-- Create-or-overwrite a file (`File::create` + write). -/
def fsWrite (fs : Fs) (p : FPath) (c : Str) : Fs := fsRemove fs p ++ [(p, c)]

/-- `fs::rename(old, new)`: fails when the source does not exist,
overwrites the destination when it does. -/
def fsRename (fs : Fs) (oldP newP : FPath) : Option Fs :=
  match fsRead fs oldP with
  | none => none
  | some c => some (fsWrite (fsRemove fs oldP) newP c)

/-- `fs::copy(src, dst)`: fails when the source does not exist. -/
def fsCopy (fs : Fs) (src dst : FPath) : Option Fs :=
  match fsRead fs src with
  | none => none
  | some c => some (fsWrite fs dst c)

/-!  Queue module (`queue.rs`).  -/

/-- `queue.rs:25-31` `ProposalStatus`. -/
inductive ProposalStatus where
  | Pending
  | Executing
  | Completed
  | Failed
  | Rejected
  deriving DecidableEq

/-- Status strings of `update_proposal_status` (`queue.rs:193-199`). -/
def statusStr : ProposalStatus → Str
  | .Pending => str "pending"
  | .Executing => str "executing"
  | .Completed => str "completed"
  | .Failed => str "failed"
  | .Rejected => str "rejected"

/-- `queue.rs:174-182` `extract_proposal_id`: split the filename on `'_'`;
require at least two parts with the first equal to `"proposal"`; return the
second part. -/
def extract_proposal_id (filename : Str) : Except NodeError Str :=
  match splitChar '_' filename with
  | p0 :: p1 :: _ =>
    if p0 = str "proposal" then .ok p1
    else .error (.Queue (str "Invalid proposal filename format: " ++ filename))
  | _ => .error (.Queue (str "Invalid proposal filename format: " ++ filename))

/-- The filename `proposal_<id>_<status>.dsl` built at `queue.rs:201`. -/
def statusFileName (pid : Str) (status : ProposalStatus) : Str :=
  str "proposal_" ++ pid ++ '_' :: (statusStr status ++ str ".dsl")

/-- `queue.rs:185-209` `update_proposal_status`: parse the id out of the
current filename, build `proposal_<id>_<status>.dsl` in the same directory,
and rename; a failed rename is a `Queue` error. -/
def update_proposal_status (fs : Fs) (p : FPath) (status : ProposalStatus) :
    Except NodeError Fs :=
  match extract_proposal_id p.name with
  | .error e => .error e
  | .ok pid =>
    let newPath : FPath := ⟨p.dir, statusFileName pid status⟩
    match fsRename fs p newPath with
    | none => .error (.Queue (str "Failed to update proposal status"))
    | some fs' => .ok fs'

/-- The sweep's file filter (`queue.rs:50`):
`filename.ends_with("_pending.dsl") || filename.ends_with(".dsl")`. -/
def sweepFilter (name : Str) : Bool :=
  endsWith name (str "_pending.dsl") || endsWith name (str ".dsl")

/-- Lexicographic comparison of two names, character by character by code
point — the order in which `Vec<PathBuf>::sort()` arranges same-directory
paths (`queue.rs:57`). -/
def strLe : Str → Str → Bool
  | [], _ => true
  | _ :: _, [] => false
  | x :: xs, y :: ys => if x = y then strLe xs ys else decide (x < y)

/-- Insert into a `strLe`-sorted list of paths, keyed by filename. -/
def insertSorted (x : FPath) : List FPath → List FPath
  | [] => [x]
  | y :: ys => if strLe x.name y.name then x :: y :: ys else y :: insertSorted x ys

/-- Sort paths by filename (all scanned paths share the queue directory). -/
def sortPaths : List FPath → List FPath
  | [] => []
  | x :: xs => insertSorted x (sortPaths xs)

/-- The entries of the queue directory that pass the sweep filter
(`queue.rs:42-54`), in directory-enumeration order. -/
def listQueueFiles (fs : Fs) : List FPath :=
  (fs.map Prod.fst).filter (fun p => decide (p.dir = queueDir) && sweepFilter p.name)

/-- The sweep's scan: filter then sort (`queue.rs:42-57`). -/
def scanQueue (fs : Fs) : List FPath := sortPaths (listQueueFiles fs)

/-- `Path::extension() == Some("dsl")` check of the watcher
(`queue.rs:151`): the name has a dot and its last dot-separated part is
`dsl`. -/
def extensionIsDsl (name : Str) : Bool :=
  match splitChar '.' name with
  | [] => false
  | [_] => false
  | parts => decide (parts.getLastD [] = str "dsl")

/-!  Execution coordinator (`executor.rs`) over an explicit world.

`World` bundles everything `execute_proposal_file` touches: the filesystem,
the node state document (its in-memory contents — the lock-discipline model
above treats the mutex aspect separately), the two append-only logs, the
stored execution outputs, a trace of engine invocations, and the oracles for
`Utc::now()` and `Uuid::new_v4()`.  The CoVM engine and md5 are opaque
externals (`icn_covm::execute_program_from_path`, `md5::compute`) and are
modelled as an oracle record.  -/

/-- `executor.rs:15-22` `ExecutionResult`. -/
structure ExecutionResult where
  proposal_id : Str
  timestamp : Nat
  status_code : Int
  vertex_id : Option Str
  output : Str
  deriving DecidableEq

/-- What `icn_covm::execute_program_from_path` returns on success. -/
structure CovmResult where
  status_code : Int
  vertex_id : Option Str
  output : Str
  deriving DecidableEq

/-- Oracles for the opaque externals used by `executor.rs`: the CoVM engine
invoked with `simulate = true` during validation, the engine invoked with
production options in `run_covm`, and `md5::compute` over file contents. -/
structure ExternalOracle where
  covmSim : FPath → Bool
  covmRun : FPath → Except Str CovmResult
  md5 : Str → Str

/-- Engine invocations, recorded so that "the engine was (not) called" is a
statement about the model. -/
inductive EngineEvent where
  | engineValidate (p : FPath)
  | engineRun (p : FPath)
  deriving DecidableEq

/-- The mutable world `executor.rs` and `queue.rs` act on. -/
structure World where
  fs : Fs
  st : NodeState
  rejectedLog : List (Str × Str)
  dagLog : List VertexEntry
  outputs : List (Str × ExecutionResult)
  events : List EngineEvent
  now : Nat
  freshId : Str
  deriving DecidableEq

/-- The in-memory transformation of `state.rs:247-258`
`add_executed_proposal` (push the id if absent, `last_updated` stamp).  This
is only the document transformation the function attempts under its guard:
the `save_state()` call at line 255 re-locks the held `STATE` mutex and never
returns, which `add_executed_proposal_m` and `execute_core_m` model; the
pure-effect executor below uses this transformation, and is relied on only
along traces that error or return before reaching the mutator call. -/
def stAddExecutedProposal (s : NodeState) (pid : Str) (now : Nat) : NodeState :=
  let s' :=
    if s.executed_proposals.contains pid then s
    else { s with executed_proposals := s.executed_proposals ++ [pid] }
  { s' with last_updated := now }

/-- The in-memory transformation of `state.rs:200-212` `add_vertex` (push
the vertex, append the `dag.log` line, `last_updated` stamp).  As with
`stAddExecutedProposal`, the `save_state()` re-lock at line 209 that never
returns is modelled by `add_vertex_m` and `execute_core_m`; this pure effect
serves the executor embedding on traces that never reach the call. -/
def wAddVertex (w : World) (v : VertexEntry) : World :=
  { w with
    st := { w.st with dag_vertices := w.st.dag_vertices ++ [v], last_updated := w.now },
    dagLog := w.dagLog ++ [v] }

/-- The id `execute_proposal_file` derives from a filename
(`executor.rs:37-42`): the parsed proposal id, or the whole filename when the
name is not in the standard format. -/
def proposalIdOf (filename : Str) : Str :=
  match extract_proposal_id filename with
  | .ok id => id
  | .error _ => filename

/-- The structural part of `validate_proposal` (`executor.rs:208-232`) as a
single predicate: braces present, and when the content mentions `proposal`,
the `title:` and `description:` fields present. -/
def structuralOk (content : Str) : Bool :=
  (hasChar content '{' && hasChar content '}') &&
  (!containsSub content (str "proposal") ||
    (containsSub content (str "title:") && containsSub content (str "description:")))

/-- `executor.rs:205-248` `validate_proposal`: read the file, check for
braces, check `title:`/`description:` when the content mentions `proposal`,
then dry-run the engine with `simulate = true`. -/
def validate_proposal (ext : ExternalOracle) (w : World) (p : FPath) :
    World × Except NodeError Bool :=
  match fsRead w.fs p with
  | none => (w, .error (.Validation (str "Failed to read proposal file")))
  | some content =>
    if !(hasChar content '{' && hasChar content '}') then (w, .ok false)
    else if containsSub content (str "proposal") &&
        !containsSub content (str "title:") then (w, .ok false)
    else if containsSub content (str "proposal") &&
        !containsSub content (str "description:") then (w, .ok false)
    else
      ({ w with events := w.events ++ [.engineValidate p] }, .ok (ext.covmSim p))

/-- `executor.rs:251-295` `run_covm`: invoke the engine with production
options on `p` and package an `ExecutionResult`. -/
def run_covm (ext : ExternalOracle) (w : World) (p : FPath) :
    World × Except NodeError ExecutionResult :=
  let w' := { w with events := w.events ++ [.engineRun p] }
  match ext.covmRun p with
  | .error e => (w', .error (.Execution (str "CoVM execution failed: " ++ e)))
  | .ok r =>
    (w', .ok { proposal_id := proposalIdOf p.name, timestamp := w'.now,
               status_code := r.status_code, vertex_id := r.vertex_id,
               output := r.output })

/-- `queue.rs:245-262` `log_rejected_proposal`: append an id/reason line to
`logs/rejected.log`. -/
def log_rejected_proposal (w : World) (pid reason : Str) : World :=
  { w with rejectedLog := w.rejectedLog ++ [(pid, reason)] }

/-- `executor.rs:317-325` `generate_content_hash`: read the file and md5 its
contents. -/
def generate_content_hash (ext : ExternalOracle) (fs : Fs) (p : FPath) :
    Except NodeError Str :=
  match fsRead fs p with
  | none => .error (.Execution (str "Failed to read proposal file"))
  | some c => .ok (ext.md5 c)

/-- `executor.rs:298-314` `store_execution_output`: write
`output/execution_<id>_<timestamp>.json`. -/
def store_execution_output (w : World) (pid : Str) (r : ExecutionResult) : World :=
  { w with outputs := w.outputs ++ [(pid, r)] }

/-- `executor.rs:53-102`, the part of `execute_proposal_file` after
validation.  Note that `p` is the path the function was called with: the
rename at line 55 moves the file on disk, but every later step (engine run,
archival copy, hash, final rename) still uses `p`.  The state-mutator calls
of the success branch are modelled here by their in-memory transformations
(`stAddExecutedProposal`, `wAddVertex`); `execute_core_m` below models the
same lines lock-aware, where those calls never return. -/
def execute_core (ext : ExternalOracle) (w : World) (p : FPath) (pid : Str) :
    World × Except NodeError ExecutionResult :=
  -- line 54-56: mark executing when the file is inside the queue directory
  let step1 : Except NodeError World :=
    if p.dir = queueDir then
      match update_proposal_status w.fs p .Executing with
      | .error e => .error e
      | .ok fs' => .ok { w with fs := fs' }
    else .ok w
  match step1 with
  | .error e => (w, .error e)
  | .ok w1 =>
    -- line 59: run the engine on the original (now possibly stale) path
    match run_covm ext w1 p with
    | (w2, .error e) => (w2, .error e)
    | (w2, .ok result) =>
      if result.status_code = 0 then
        -- lines 62-92: archive, mark completed, record in state, vertex, output
        let step2 : Except NodeError World :=
          if p.dir = queueDir then
            let dest : FPath := ⟨executedDir, str "proposal_" ++ pid ++ str "_completed.dsl"⟩
            match fsCopy w2.fs p dest with
            | none => .error (.Io (str "No such file or directory"))
            | some fs' =>
              match update_proposal_status fs' p .Completed with
              | .error e => .error e
              | .ok fs'' => .ok { w2 with fs := fs'' }
          else .ok w2
        match step2 with
        | .error e => (w2, .error e)
        | .ok w3 =>
          let w4 := { w3 with st := stAddExecutedProposal w3.st pid w3.now }
          let vertexId := result.vertex_id.getD w4.freshId
          match generate_content_hash ext w4.fs p with
          | .error e => (w4, .error e)
          | .ok h =>
            let v : VertexEntry :=
              { id := vertexId, proposal_id := pid, timestamp := w4.now, hash := h }
            let w5 := wAddVertex w4 v
            let w6 := store_execution_output w5 pid result
            (w6, .ok result)
      else
        -- lines 93-100: mark failed when the file is inside the queue directory
        if p.dir = queueDir then
          match update_proposal_status w2.fs p .Failed with
          | .error e => (w2, .error e)
          | .ok fs' => ({ w2 with fs := fs' }, .ok result)
        else (w2, .ok result)

/-- `executor.rs:25-103` `execute_proposal_file`: existence check, id
extraction, validation (unless forced, with rejection logging), then
`execute_core`. -/
def execute_proposal_file (ext : ExternalOracle) (w : World) (p : FPath)
    (force : Bool) : World × Except NodeError ExecutionResult :=
  if !fsExists w.fs p then
    (w, .error (.Execution (str "Proposal file not found")))
  else
    let pid := proposalIdOf p.name
    if force then execute_core ext w p pid
    else
      match validate_proposal ext w p with
      | (w1, .error e) => (w1, .error e)
      | (w1, .ok true) => execute_core ext w1 p pid
      | (w1, .ok false) =>
        let reason := str "Proposal validation failed"
        let w2 := log_rejected_proposal w1 pid reason
        (w2, .error (.Validation reason))

/-- `executor.rs:53-102`, lock-aware: identical to `execute_core` up to the
engine-success commit, but the `state::add_executed_proposal` call at
executor.rs:77 is `add_executed_proposal_m` on the free `STATE` mutex — it
locks, pushes the id, then re-locks inside `save_state()` and never returns
(`none`); the continuation (hash, `state::add_vertex` at line 89, stored
output) is written out for fidelity but is unreachable. -/
def execute_core_m (ext : ExternalOracle) (w : World) (p : FPath) (pid : Str) :
    Option (World × Except NodeError ExecutionResult) :=
  let step1 : Except NodeError World :=
    if p.dir = queueDir then
      match update_proposal_status w.fs p .Executing with
      | .error e => .error e
      | .ok fs' => .ok { w with fs := fs' }
    else .ok w
  match step1 with
  | .error e => some (w, .error e)
  | .ok w1 =>
    match run_covm ext w1 p with
    | (w2, .error e) => some (w2, .error e)
    | (w2, .ok result) =>
      if result.status_code = 0 then
        let step2 : Except NodeError World :=
          if p.dir = queueDir then
            let dest : FPath := ⟨executedDir, str "proposal_" ++ pid ++ str "_completed.dsl"⟩
            match fsCopy w2.fs p dest with
            | none => .error (.Io (str "No such file or directory"))
            | some fs' =>
              match update_proposal_status fs' p .Completed with
              | .error e => .error e
              | .ok fs'' => .ok { w2 with fs := fs'' }
          else .ok w2
        match step2 with
        | .error e => some (w2, .error e)
        | .ok w3 =>
          match add_executed_proposal_m pid w3.now ⟨false, w3.st⟩ with
          | none => none
          | some s4 =>
            let w4 := { w3 with st := s4.st }
            let vertexId := result.vertex_id.getD w4.freshId
            match generate_content_hash ext w4.fs p with
            | .error e => some (w4, .error e)
            | .ok h =>
              let v : VertexEntry :=
                { id := vertexId, proposal_id := pid, timestamp := w4.now, hash := h }
              match add_vertex_m w4.now v ⟨s4.held, w4.st⟩ with
              | none => none
              | some s5 =>
                let w5 := { w4 with st := s5.st, dagLog := w4.dagLog ++ [v] }
                some (store_execution_output w5 pid result, .ok result)
      else
        if p.dir = queueDir then
          match update_proposal_status w2.fs p .Failed with
          | .error e => some (w2, .error e)
          | .ok fs' => some ({ w2 with fs := fs' }, .ok result)
        else some (w2, .ok result)

/-- `executor.rs:25-103` `execute_proposal_file`, lock-aware: the same
existence / id / validation phases as `execute_proposal_file`, dispatching to
`execute_core_m`; `none` means the call never returns. -/
def execute_proposal_file_m (ext : ExternalOracle) (w : World) (p : FPath)
    (force : Bool) : Option (World × Except NodeError ExecutionResult) :=
  if !fsExists w.fs p then
    some (w, .error (.Execution (str "Proposal file not found")))
  else
    let pid := proposalIdOf p.name
    if force then execute_core_m ext w p pid
    else
      match validate_proposal ext w p with
      | (w1, .error e) => some (w1, .error e)
      | (w1, .ok true) => execute_core_m ext w1 p pid
      | (w1, .ok false) =>
        let reason := str "Proposal validation failed"
        some (log_rejected_proposal w1 pid reason, .error (.Validation reason))

/-- The loop body of `process_queue` (`queue.rs:60-86`): for each scanned
file, extract the id (`?`), skip it when already executed, otherwise execute;
on execution error rename the file to `failed` (`?`). -/
def processFiles (ext : ExternalOracle) :
    List FPath → World → Nat → World × Except NodeError Nat
  | [], w, acc => (w, .ok acc)
  | p :: rest, w, acc =>
    match extract_proposal_id p.name with
    | .error e => (w, .error e)
    | .ok pid =>
      if w.st.executed_proposals.contains pid then
        processFiles ext rest w acc
      else
        match execute_proposal_file ext w p false with
        | (w', .ok _) => processFiles ext rest w' (acc + 1)
        | (w', .error _) =>
          match update_proposal_status w'.fs p .Failed with
          | .error e => (w', .error e)
          | .ok fs' => processFiles ext rest { w' with fs := fs' } acc

/-- `queue.rs:34-89` `process_queue`: scan the queue directory once, then
process the files in sorted order. -/
def process_queue (ext : ExternalOracle) (w : World) : World × Except NodeError Nat :=
  processFiles ext (scanQueue w.fs) w 0

/-- The sweep's idempotence guard for one file (`queue.rs:65-72`): the id
parses and is already a member of the executed set. -/
def executedBefore (w : World) (p : FPath) : Bool :=
  match extract_proposal_id p.name with
  | .ok pid => w.st.executed_proposals.contains pid
  | .error _ => false

/-- The watcher's per-event dispatch (`queue.rs:146-165`): on a create or
modify event for a path with extension `dsl`, spawn
`execute_proposal_file(path, false)` — with no executed-set check. -/
def watch_on_event (ext : ExternalOracle) (w : World) (p : FPath) : World :=
  if extensionIsDsl p.name then (execute_proposal_file ext w p false).1 else w

/-!  Federation broadcaster (`federation.rs`).  -/

/-- `federation.rs:10-16` `Peer`. -/
structure Peer where
  id : Str
  name : Str
  address : Str
  last_seen : Option Nat
  deriving DecidableEq

/-- Network oracles: the outcome of `check_peer_status`
(`federation.rs:124-145`, a `GET <address>/status` with a five-second
timeout) and of the `POST <address>/dag/vertices` push (a non-2xx response
counts as failure). -/
structure FederationEnv where
  checkPeer : Str → Except NodeError Unit
  pushVertex : Str → VertexEntry → Except NodeError Unit

/-- Per-peer outcome of the broadcast loop, as logged by
`federation.rs:46-68`. -/
inductive BroadcastOutcome where
  | pushed (peerName : Str)
  | pushFailed (peerName : Str)
  | skippedOffline (peerName : Str)
  deriving DecidableEq

/-- The peer loop of `broadcast_vertex` (`federation.rs:42-69`): health-check
each peer; on success push (success or failure only logged); on failure skip
the peer.  No branch returns an error. -/
def broadcastLoop (env : FederationEnv) (v : VertexEntry) :
    List Peer → List BroadcastOutcome
  | [] => []
  | peer :: rest =>
    match env.checkPeer peer.address with
    | .ok _ =>
      (match env.pushVertex peer.address v with
       | .ok _ => BroadcastOutcome.pushed peer.name
       | .error _ => BroadcastOutcome.pushFailed peer.name) :: broadcastLoop env v rest
    | .error _ => BroadcastOutcome.skippedOffline peer.name :: broadcastLoop env v rest

/-- `federation.rs:27-34` `FederationConfig`. -/
structure FederationConfig where
  federation_name : Str
  node_id : Str
  node_name : Str
  peers : List Peer
  sync_endpoint : Str

/-- Outcome of probing the external `../scripts/mesh-status.sh` collaborator
(`federation.rs:155-175`): the script file is absent, spawning it fails, it
exits non-zero, or it succeeds with some stdout. -/
inductive ScriptProbe where
  | missing
  | spawnFail (msg : Str)
  | exitNonzero
  | output (json : Str)

/-- Deserializing one of the serialized `NodeState` field values as a
`FederationConfig` (`serde_json::from_value`): every value `stateToValue`
yields is a string, integer or array, never a config object, so this always
fails — mirroring `valueToNodeState`. -/
def valueToFederationConfig (_v : JsonVal) : Except NodeError FederationConfig :=
  .error (.State (str "Failed to deserialize state value"))

/-- `federation.rs:148-198` `get_federation_config`, lock-aware.  Line 150
tries `state::get::<FederationConfig>("federation_config")` (one lock/unlock
of `STATE`; the key is never among the serialized `NodeState` fields, so this
always falls through).  The script-success path (line 171) and the default
path (line 195) then call `state::set("federation_config", ...)`, which
re-locks the held `STATE` mutex inside `save_state()` and never returns
(`none`); the in-memory transformation of that `set` is the identity, since
deserializing the document back into `NodeState` drops the unknown key.  Only
the script spawn-failure and parse-failure paths return, with a `Federation`
error (`?` at lines 159-163 and 167-168). -/
def get_federation_config_m (probe : ScriptProbe)
    (parse : Str → Except Str FederationConfig) (dflt : FederationConfig)
    (now : Nat) (s : LockedState) :
    Option (Except NodeError FederationConfig × LockedState) :=
  if s.held then none
  else
    let got : Except NodeError FederationConfig :=
      match state_get s.st (str "federation_config") with
      | .error e => .error e
      | .ok v => valueToFederationConfig v
    match got with
    | .ok cfg => some (.ok cfg, s)
    | .error _ =>
      match probe with
      | .missing =>
        (match set_m (fun st => st) now s with
         | none => none
         | some s' => some (.ok dflt, s'))
      | .spawnFail msg =>
        some (.error (.Federation
          (str "Failed to execute mesh status script: " ++ msg)), s)
      | .exitNonzero =>
        (match set_m (fun st => st) now s with
         | none => none
         | some s' => some (.ok dflt, s'))
      | .output json =>
        match parse json with
        | .error e =>
          some (.error (.Federation
            (str "Failed to parse federation config: " ++ e)), s)
        | .ok cfg =>
          (match set_m (fun st => st) now s with
           | none => none
           | some s' => some (.ok cfg, s'))

/-- `federation.rs:37-93` `broadcast_vertex`, lock-aware:
`get_federation_config()?` at line 39, then the peer loop, then `Ok(())`.
`none` means the call never returns. -/
def broadcast_vertex_m (env : FederationEnv) (probe : ScriptProbe)
    (parse : Str → Except Str FederationConfig) (dflt : FederationConfig)
    (now : Nat) (v : VertexEntry) (s : LockedState) :
    Option (Except NodeError Unit × LockedState × List BroadcastOutcome) :=
  match get_federation_config_m probe parse dflt now s with
  | none => none
  | some (.error e, s') => some (.error e, s', [])
  | some (.ok cfg, s') => some (.ok (), s', broadcastLoop env v cfg.peers)

/-- `dag.rs:71-79` `add_vertex`, lock-aware: `state::add_vertex(...)?` at
line 73 (which re-locks inside `save_state()`), then
`federation::broadcast_vertex(...)?` at line 76. -/
def dag_add_vertex_m (env : FederationEnv) (probe : ScriptProbe)
    (parse : Str → Except Str FederationConfig) (dflt : FederationConfig)
    (now : Nat) (v : VertexEntry) (s : LockedState) :
    Option (Except NodeError Unit × LockedState) :=
  match add_vertex_m now v s with
  | none => none
  | some s1 =>
    match broadcast_vertex_m env probe parse dflt now v s1 with
    | none => none
    | some (.error e, s2, _) => some (.error e, s2)
    | some (.ok _, s2, _) => some (.ok (), s2)

/-!  Concrete instances used by the counterexamples and witnesses.  -/

/-- An oracle whose engine always validates and always executes with status
code zero, and whose hash is the raw content (the hash value is irrelevant to
every claim below). -/
def extOk : ExternalOracle :=
  { covmSim := fun _ => true,
    covmRun := fun _ => .ok { status_code := 0, vertex_id := none, output := [] },
    md5 := fun c => c }

/-- A fresh default node state (concrete stand-in for `NodeState::default`). -/
def stBase : NodeState :=
  { node_id := str "node-0", initialized_at := 0, last_updated := 0,
    last_executed_block := 0, last_proposal_id := 0, executed_proposals := [],
    active_connection := [], peers := [], system_version := str "0.1.0",
    dag_vertices := [] }

/-- A world with the given queue contents and executed set. -/
def mkWorld (fs : Fs) (executed : List Str) : World :=
  { fs := fs, st := { stBase with executed_proposals := executed },
    rejectedLog := [], dagLog := [], outputs := [], events := [],
    now := 0, freshId := str "uuid-0" }

/-- A payload passing every structural validation check. -/
def goodContent : Str := str "{proposal title: t description: d}"

/-- A payload with no JSON braces: fails structural validation. -/
def badContent : Str := str "x"

/-- A governance payload missing the required `title:` field. -/
def noTitleContent : Str := str "{proposal}"

def p42pending : FPath := ⟨queueDir, str "proposal_42_pending.dsl"⟩
def p42executing : FPath := ⟨queueDir, str "proposal_42_executing.dsl"⟩
def p9pending : FPath := ⟨queueDir, str "proposal_9_pending.dsl"⟩
def p7rejected : FPath := ⟨queueDir, str "proposal_7_rejected.dsl"⟩
def p7failed : FPath := ⟨queueDir, str "proposal_7_failed.dsl"⟩
def p7pending : FPath := ⟨queueDir, str "proposal_7_pending.dsl"⟩
def p10pending : FPath := ⟨queueDir, str "proposal_10_pending.dsl"⟩
def p300plain : FPath := ⟨queueDir, str "proposal_300.dsl"⟩

/-- Scenario A world: one well-formed pending proposal, nothing executed. -/
def w42 : World := mkWorld [(p42pending, goodContent)] []

/-- Watcher-race world: `proposal_9_pending.dsl` present while `"9"` is
already in the executed set. -/
def w9 : World := mkWorld [(p9pending, goodContent)] [str "9"]

/-- A world whose only queue file is already in the terminal `rejected`
status, with an invalid payload. -/
def w7rej : World := mkWorld [(p7rejected, badContent)] []

/-- Scenario B world: one pending proposal missing its `title:` field. -/
def w7pend : World := mkWorld [(p7pending, noTitleContent)] []

/-- A queue holding a failed file and two pending files with ids 7 and 10. -/
def fs7mixed : Fs :=
  [(p7failed, badContent), (p10pending, goodContent), (p7pending, goodContent)]

/-- A proposal file living outside the queue directory. -/
def pOutside : FPath := ⟨str "tmp", str "proposal_5_pending.dsl"⟩

/-- World whose only proposal file lies outside the queue directory. -/
def wOut : World := mkWorld [(pOutside, goodContent)] []

/-!  Theorems.  -/

/-- C1: false of the code — every state mutation operation (`state::set`,
`state::add_vertex`, `state::add_executed_proposal`) acquires the `STATE`
mutex and then calls `save_state()`, which re-acquires the same non-reentrant
mutex while the caller's guard is still live; starting from a free lock, none
of the three ever completes the lock → mutate → stamp → backup → write
sequence and returns (modelled as `none`). -/
theorem C1_state_mutations_do_not_return (upd : NodeState → NodeState)
    (now : Nat) (v : VertexEntry) (pid : Str) (st : NodeState) :
    set_m upd now ⟨false, st⟩ = none ∧
    add_vertex_m now v ⟨false, st⟩ = none ∧
    add_executed_proposal_m pid now ⟨false, st⟩ = none := by
  refine ⟨?_, ?_, ?_⟩ <;>
    simp [set_m, add_vertex_m, add_executed_proposal_m, save_state_m]

/-- C2: evaluation of the code at Scenario A's input — a queue holding only a
well-formed `proposal_42_pending.dsl` with an engine that always succeeds.
Because `execute_proposal_file` renames the file to `_executing` and then
keeps using the stale pending path, the archival copy fails, the sweep's
recovery rename fails too, and the sweep aborts: the file is left at
`proposal_42_executing.dsl`, the ledger stays empty, the executed set stays
empty, and `process_queue` returns a `Queue` error — not the relocated
file / executed-set / ledger end state the claim describes. -/
theorem C2_sweep_stale_path_end_state :
    (process_queue extOk w42).1.fs = [(p42executing, goodContent)] ∧
    (process_queue extOk w42).1.st.dag_vertices = [] ∧
    (process_queue extOk w42).1.st.executed_proposals = [] ∧
    (process_queue extOk w42).2 =
      .error (.Queue (str "Failed to update proposal status")) :=
  ⟨rfl, rfl, rfl, rfl⟩

/-- C3 counterexample: with `"9"` already in the executed set and
`proposal_9_pending.dsl` observed by the filesystem watcher, the watcher's
dispatch (`queue.rs:157`) invokes the engine anyway — both the validation
dry run and the production run fire — so the claim that both dispatch paths
check executed-set membership before invoking the coordinator is false. -/
theorem C3_watcher_dispatch_invokes_engine :
    w9.st.executed_proposals = [str "9"] ∧
    (watch_on_event extOk w9 p9pending).events =
      [.engineValidate p9pending, .engineRun p9pending] :=
  ⟨rfl, rfl⟩

/-- C4 counterexample: a file already in the terminal `rejected` status is
picked up by the sweep (its filter accepts any `.dsl` name), fails
validation, and is renamed to `proposal_7_failed.dsl` — a transition out of
a terminal status, contradicting the claim. -/
theorem C4_rejected_file_renamed_to_failed :
    fsRead w7rej.fs p7rejected = some badContent ∧
    (process_queue extOk w7rej).1.fs = [(p7failed, badContent)] ∧
    (process_queue extOk w7rej).2 = .ok 0 :=
  ⟨rfl, rfl, rfl⟩

/-- C5 counterexample: processing `proposal_7_pending.dsl` whose payload
fails validation ends with the file renamed to `proposal_7_failed.dsl`, not
to `proposal_7_rejected.dsl` as the claim states. -/
theorem C5_invalid_marked_failed_not_rejected :
    fsRead (process_queue extOk w7pend).1.fs
      ⟨queueDir, str "proposal_7_rejected.dsl"⟩ = none ∧
    fsRead (process_queue extOk w7pend).1.fs p7failed = some noTitleContent :=
  ⟨rfl, rfl⟩

/-- C6 counterexample: transitioning the unsuffixed `proposal_300.dsl` to
`executing` produces the malformed `proposal_300.dsl_executing.dsl`; no file
matching id `300` and status `executing` (`proposal_300_executing.dsl`)
exists afterwards, contradicting the claim's "exactly one file matching that
id and status". -/
theorem C6_unsuffixed_file_malformed_rename :
    update_proposal_status [(p300plain, goodContent)] p300plain .Executing =
      .ok [(⟨queueDir, str "proposal_300.dsl_executing.dsl"⟩, goodContent)] ∧
    fsRead [(⟨queueDir, str "proposal_300.dsl_executing.dsl"⟩, goodContent)]
      ⟨queueDir, str "proposal_300_executing.dsl"⟩ = none :=
  ⟨rfl, rfl⟩

/-- C7 counterexample: the sweep's scan of a queue holding
`proposal_7_failed.dsl`, `proposal_10_pending.dsl` and
`proposal_7_pending.dsl` returns the failed file too (its filter accepts any
`.dsl` name), and orders id 10 before id 7 (lexicographic path order, not
identifier order) — both parts of the claim are false. -/
theorem C7_scan_includes_failed_and_lexicographic :
    scanQueue fs7mixed = [p10pending, p7failed, p7pending] ∧
    p7failed ∈ scanQueue fs7mixed :=
  ⟨rfl, by decide⟩

theorem get_config_output_eq (parse : Str → Except Str FederationConfig)
    (dflt : FederationConfig) (now : Nat) (st : NodeState) (json : Str) :
    get_federation_config_m (.output json) parse dflt now ⟨false, st⟩ =
      (match parse json with
       | .error e => some (.error (.Federation
           (str "Failed to parse federation config: " ++ e)),
         (⟨false, st⟩ : LockedState))
       | .ok _cfg => none) := by
  show ((match parse json with
        | .error e => some (.error (.Federation
            (str "Failed to parse federation config: " ++ e)),
          (⟨false, st⟩ : LockedState))
        | .ok cfg =>
          (match set_m (fun x => x) now ⟨false, st⟩ with
           | none => none
           | some s' => some (.ok cfg, s'))) :
      Option (Except NodeError FederationConfig × LockedState)) = _
  cases parse json with
  | error e => rfl
  | ok cfg => rfl

/-- C8: false of the code — `broadcast_vertex` never returns `Ok`.  Its
first step, `get_federation_config()?` (federation.rs:39), either never
returns (the `state::set("federation_config", ...)` calls on the
script-success and default-config paths re-lock the held `STATE` mutex
inside `save_state()`) or surfaces `Err(Federation)` (script spawn or parse
failure), for every peer environment and every outcome of the per-peer
health checks; and `dag.rs::add_vertex`, whose `state::add_vertex` call
deadlocks first, never returns at all. -/
theorem C8_broadcast_never_ok (env : FederationEnv) (probe : ScriptProbe)
    (parse : Str → Except Str FederationConfig) (dflt : FederationConfig)
    (now : Nat) (v : VertexEntry) (st : NodeState) :
    (broadcast_vertex_m env probe parse dflt now v ⟨false, st⟩ = none ∨
      ∃ msg, broadcast_vertex_m env probe parse dflt now v ⟨false, st⟩ =
        some (.error (.Federation msg), ⟨false, st⟩, [])) ∧
    dag_add_vertex_m env probe parse dflt now v ⟨false, st⟩ = none := by
  constructor
  · cases probe with
    | missing => left; rfl
    | spawnFail msg =>
      right
      exact ⟨str "Failed to execute mesh status script: " ++ msg, rfl⟩
    | exitNonzero => left; rfl
    | output json =>
      cases hp : parse json with
      | error e =>
        right
        refine ⟨str "Failed to parse federation config: " ++ e, ?_⟩
        unfold broadcast_vertex_m
        rw [get_config_output_eq, hp]
      | ok cfg =>
        left
        unfold broadcast_vertex_m
        rw [get_config_output_eq, hp]
  · rfl

/-- C9: false of the code — `dag.rs::get_all_vertices` fetches the key
`"state"` from the serialized state document, but the document's keys are
exactly the ten field names of `NodeState`, so for every state and every
requested id `get_vertex` returns the `State`-kind error
`Key not found in state: state`: never `Ok`, and never the claimed
`Dag`-kind not-found error. -/
theorem C9_get_vertex_always_state_error (s : NodeState) (id : Str) :
    get_vertex s id =
      .error (.State (str "Key not found in state: " ++ str "state")) :=
  rfl

/-!  Helper lemmas about the string and filesystem primitives.  -/

theorem splitChar_sep_free {c : Char} {a : Str} (h : c ∉ a) :
    splitChar c a = [a] := by
  induction a with
  | nil => rfl
  | cons x xs ih =>
    rw [List.mem_cons, not_or] at h
    simp only [splitChar, if_neg (fun he : x = c => h.1 he.symm), ih h.2]

theorem splitChar_append {c : Char} {a : Str} (b : Str) (h : c ∉ a) :
    splitChar c (a ++ c :: b) = a :: splitChar c b := by
  induction a with
  | nil => simp [splitChar]
  | cons x xs ih =>
    rw [List.mem_cons, not_or] at h
    rw [List.cons_append]
    simp only [splitChar, if_neg (fun he : x = c => h.1 he.symm), ih h.2]

theorem fsRead_fsRemove_self (fs : Fs) (p : FPath) :
    fsRead (fsRemove fs p) p = none := by
  induction fs with
  | nil => rfl
  | cons e rest ih =>
    obtain ⟨q, c⟩ := e
    by_cases h : q = p
    · simpa [fsRemove, h] using ih
    · simpa [fsRemove, fsRead, h] using ih

theorem fsRead_cons_pair (r : FPath) (c : Str) (rest : Fs) (q : FPath) :
    fsRead ((r, c) :: rest) q = if r = q then some c else fsRead rest q := rfl

theorem fsRead_fsRemove_ne (fs : Fs) {p q : FPath} (h : q ≠ p) :
    fsRead (fsRemove fs p) q = fsRead fs q := by
  induction fs with
  | nil => rfl
  | cons e rest ih =>
    obtain ⟨r, c⟩ := e
    by_cases hr : r = p
    · subst hr
      rw [fsRemove, if_pos rfl, ih, fsRead_cons_pair,
        if_neg (fun he : r = q => h he.symm)]
    · rw [fsRemove, if_neg hr, fsRead_cons_pair, fsRead_cons_pair]
      by_cases hq : r = q
      · rw [if_pos hq, if_pos hq]
      · rw [if_neg hq, if_neg hq, ih]

theorem fsRead_append_of_none {a : Fs} {p : FPath} (h : fsRead a p = none)
    (b : Fs) : fsRead (a ++ b) p = fsRead b p := by
  induction a with
  | nil => rfl
  | cons e rest ih =>
    obtain ⟨q, c⟩ := e
    by_cases hq : q = p
    · rw [fsRead_cons_pair, if_pos hq] at h
      exact absurd h (by simp)
    · rw [fsRead_cons_pair, if_neg hq] at h
      rw [List.cons_append, fsRead_cons_pair, if_neg hq]
      exact ih h

theorem fsRead_append_of_some {a : Fs} {p : FPath} {c : Str}
    (h : fsRead a p = some c) (b : Fs) : fsRead (a ++ b) p = some c := by
  induction a with
  | nil => exact absurd h (by simp [fsRead])
  | cons e rest ih =>
    obtain ⟨q, cc⟩ := e
    by_cases hq : q = p
    · rw [fsRead_cons_pair, if_pos hq] at h
      rw [List.cons_append, fsRead_cons_pair, if_pos hq]
      exact h
    · rw [fsRead_cons_pair, if_neg hq] at h
      rw [List.cons_append, fsRead_cons_pair, if_neg hq]
      exact ih h

theorem fsRead_fsWrite_self (fs : Fs) (p : FPath) (c : Str) :
    fsRead (fsWrite fs p c) p = some c := by
  unfold fsWrite
  rw [fsRead_append_of_none (fsRead_fsRemove_self fs p), fsRead_cons_pair,
    if_pos rfl]

theorem fsRead_fsWrite_ne (fs : Fs) {p q : FPath} (c : Str) (h : q ≠ p) :
    fsRead (fsWrite fs p c) q = fsRead fs q := by
  unfold fsWrite
  cases hr : fsRead (fsRemove fs p) q with
  | none =>
    rw [fsRead_append_of_none hr, fsRead_cons_pair,
      if_neg (fun he : p = q => h he.symm)]
    rw [fsRead_fsRemove_ne fs h] at hr
    exact hr.symm
  | some c' =>
    rw [fsRead_append_of_some hr]
    rw [fsRead_fsRemove_ne fs h] at hr
    exact hr.symm

theorem countP_fsRemove_self (fs : Fs) (p : FPath) :
    (fsRemove fs p).countP (fun e => decide (e.1 = p)) = 0 := by
  induction fs with
  | nil => rfl
  | cons e rest ih =>
    obtain ⟨q, c⟩ := e
    by_cases h : q = p
    · rw [fsRemove, if_pos h]
      exact ih
    · rw [fsRemove, if_neg h, List.countP_cons]
      simp [h, ih]

theorem countP_fsRemove_zero (fs : Fs) (p q : FPath)
    (h : fs.countP (fun e => decide (e.1 = q)) = 0) :
    (fsRemove fs p).countP (fun e => decide (e.1 = q)) = 0 := by
  induction fs with
  | nil => rfl
  | cons e rest ih =>
    obtain ⟨r, c⟩ := e
    rw [List.countP_cons] at h
    by_cases hr : r = p
    · rw [fsRemove, if_pos hr]
      exact ih (by omega)
    · rw [fsRemove, if_neg hr, List.countP_cons]
      have h2 := ih (by omega)
      omega

theorem statusStr_inj : ∀ {s1 s2 : ProposalStatus},
    statusStr s1 = statusStr s2 → s1 = s2 := by
  intro s1 s2
  cases s1 <;> cases s2 <;> decide

theorem sep_not_in_statusTail (s : ProposalStatus) :
    '_' ∉ statusStr s ++ str ".dsl" := by
  cases s <;> decide

theorem extract_statusFileName (pid : Str) (s : ProposalStatus)
    (h : '_' ∉ pid) : extract_proposal_id (statusFileName pid s) = .ok pid := by
  have e1 : statusFileName pid s =
      str "proposal" ++ '_' :: (pid ++ '_' :: (statusStr s ++ str ".dsl")) := rfl
  unfold extract_proposal_id
  rw [e1, splitChar_append _ (by decide), splitChar_append _ h]
  simp

theorem extract_unsuffixed (pid : Str) (h : '_' ∉ pid) :
    extract_proposal_id (str "proposal_" ++ pid ++ str ".dsl") =
      .ok (pid ++ str ".dsl") := by
  have e1 : str "proposal_" ++ pid ++ str ".dsl" =
      str "proposal" ++ '_' :: (pid ++ str ".dsl") := by
    have : str "proposal_" = str "proposal" ++ ['_'] := rfl
    rw [this, List.append_assoc, List.append_assoc, List.singleton_append]
  have h2 : '_' ∉ pid ++ str ".dsl" := by
    rw [List.mem_append, not_or]
    exact ⟨h, by decide⟩
  unfold extract_proposal_id
  rw [e1, splitChar_append _ (by decide), splitChar_sep_free h2]
  simp

theorem statusFileName_ne (pid : Str) {s1 s2 : ProposalStatus} (h : s1 ≠ s2) :
    statusFileName pid s1 ≠ statusFileName pid s2 := by
  intro he
  apply h
  apply statusStr_inj
  have e1 : ∀ s : ProposalStatus, statusFileName pid s =
      (str "proposal" ++ '_' :: pid) ++ ('_' :: (statusStr s ++ str ".dsl")) := by
    intro s; rfl
  rw [e1 s1, e1 s2] at he
  have h2 := List.append_cancel_left he
  have h3 : statusStr s1 ++ str ".dsl" = statusStr s2 ++ str ".dsl" :=
    List.tail_eq_of_cons_eq h2
  exact List.append_cancel_right h3

theorem endsWith_append_self (x pat : Str) : endsWith (x ++ pat) pat = true := by
  simp [endsWith]

theorem sweepFilter_eq_dsl (name : Str) :
    sweepFilter name = endsWith name (str ".dsl") := by
  unfold sweepFilter
  cases h : endsWith name (str "_pending.dsl") with
  | false => simp
  | true =>
    have h2 : endsWith name (str ".dsl") = true := by
      rw [endsWith, decide_eq_true_eq] at h ⊢
      exact List.IsSuffix.trans (by decide) h
    simp [h2]

theorem sweepFilter_statusFileName (pid : Str) (s : ProposalStatus) :
    sweepFilter (statusFileName pid s) = true := by
  rw [sweepFilter_eq_dsl]
  have e1 : statusFileName pid s =
      (str "proposal_" ++ pid ++ '_' :: statusStr s) ++ str ".dsl" := by
    simp [statusFileName, List.append_assoc]
  rw [e1]
  exact endsWith_append_self _ _

/-!  Helper lemmas about the sweep's sort.  -/

theorem strLe_total (a b : Str) : strLe a b = true ∨ strLe b a = true := by
  induction a generalizing b with
  | nil => left; rfl
  | cons x xs ih =>
    cases b with
    | nil => right; rfl
    | cons y ys =>
      by_cases hxy : x = y
      · subst hxy
        rcases ih ys with h | h
        · left; simpa [strLe] using h
        · right; simpa [strLe] using h
      · rcases lt_or_gt_of_ne hxy with h | h
        · left; simp [strLe, hxy, h]
        · right; simp [strLe, Ne.symm hxy, h]

theorem strLe_trans {a b c : Str} (h1 : strLe a b = true)
    (h2 : strLe b c = true) : strLe a c = true := by
  induction a generalizing b c with
  | nil => rfl
  | cons x xs ih =>
    cases b with
    | nil => simp [strLe] at h1
    | cons y ys =>
      cases c with
      | nil => simp [strLe] at h2
      | cons z zs =>
        by_cases hxy : x = y <;> by_cases hyz : y = z
        · subst hxy; subst hyz
          rw [strLe, if_pos rfl] at h1 h2 ⊢
          exact ih h1 h2
        · subst hxy
          rw [strLe, if_neg hyz, decide_eq_true_eq] at h2
          rw [strLe, if_neg hyz, decide_eq_true_eq]
          exact h2
        · subst hyz
          rw [strLe, if_neg hxy, decide_eq_true_eq] at h1
          rw [strLe, if_neg hxy, decide_eq_true_eq]
          exact h1
        · rw [strLe, if_neg hxy, decide_eq_true_eq] at h1
          rw [strLe, if_neg hyz, decide_eq_true_eq] at h2
          have hxz : x < z := lt_trans h1 h2
          rw [strLe, if_neg (ne_of_lt hxz), decide_eq_true_eq]
          exact hxz

theorem insertSorted_perm (x : FPath) (l : List FPath) :
    List.Perm (insertSorted x l) (x :: l) := by
  induction l with
  | nil => rfl
  | cons y ys ih =>
    by_cases h : strLe x.name y.name = true
    · rw [insertSorted, if_pos h]
    · rw [insertSorted, if_neg h]
      exact (List.Perm.cons y ih).trans (List.Perm.swap x y ys)

theorem sortPaths_perm (l : List FPath) : List.Perm (sortPaths l) l := by
  induction l with
  | nil => rfl
  | cons x xs ih =>
    rw [sortPaths]
    exact (insertSorted_perm x (sortPaths xs)).trans (List.Perm.cons x ih)

theorem pairwise_insertSorted {x : FPath} {l : List FPath}
    (hl : l.Pairwise (fun a b => strLe a.name b.name = true)) :
    (insertSorted x l).Pairwise (fun a b => strLe a.name b.name = true) := by
  induction l with
  | nil => simp [insertSorted]
  | cons y ys ih =>
    rw [List.pairwise_cons] at hl
    obtain ⟨hy, hys⟩ := hl
    by_cases h : strLe x.name y.name = true
    · rw [insertSorted, if_pos h, List.pairwise_cons]
      constructor
      · intro z hz
        rcases List.mem_cons.mp hz with rfl | hz'
        · exact h
        · exact strLe_trans h (hy z hz')
      · rw [List.pairwise_cons]
        exact ⟨hy, hys⟩
    · rw [insertSorted, if_neg h, List.pairwise_cons]
      refine ⟨?_, ih hys⟩
      intro z hz
      have hz2 : z = x ∨ z ∈ ys := by
        have := (insertSorted_perm x ys).mem_iff.mp hz
        simpa using this
      rcases hz2 with rfl | hz'
      · rcases strLe_total z.name y.name with h1 | h1
        · exact absurd h1 h
        · exact h1
      · exact hy z hz'

theorem sortPaths_pairwise (l : List FPath) :
    (sortPaths l).Pairwise (fun a b => strLe a.name b.name = true) := by
  induction l with
  | nil => simp [sortPaths]
  | cons x xs ih =>
    rw [sortPaths]
    exact pairwise_insertSorted ih

/-!  Helper lemmas about validation, execution and the sweep loop.  -/

theorem validate_proposal_eq (ext : ExternalOracle) (w : World) (p : FPath)
    {content : Str} (hread : fsRead w.fs p = some content) :
    validate_proposal ext w p =
      if structuralOk content then
        ({ w with events := w.events ++ [.engineValidate p] },
         .ok (ext.covmSim p))
      else (w, .ok false) := by
  unfold validate_proposal structuralOk
  rw [hread]
  cases h1 : hasChar content '{' <;> cases h2 : hasChar content '}' <;>
    cases h3 : containsSub content (str "proposal") <;>
    cases h4 : containsSub content (str "title:") <;>
    cases h5 : containsSub content (str "description:") <;>
    simp [h1, h2, h3, h4, h5]

theorem execute_invalid (ext : ExternalOracle) (w : World) (p : FPath)
    {content : Str} (hread : fsRead w.fs p = some content)
    (hval : (structuralOk content && ext.covmSim p) = false) :
    execute_proposal_file ext w p false =
      ({ w with
          rejectedLog := w.rejectedLog ++
            [(proposalIdOf p.name, str "Proposal validation failed")],
          events := w.events ++
            (if structuralOk content then [.engineValidate p] else []) },
       .error (.Validation (str "Proposal validation failed"))) := by
  have hex : fsExists w.fs p = true := by simp [fsExists, hread]
  unfold execute_proposal_file
  rw [hex]
  rw [validate_proposal_eq ext w p hread]
  rw [Bool.and_eq_false_iff] at hval
  cases hs : structuralOk content with
  | false => simp [log_rejected_proposal]
  | true =>
    have hsim : ext.covmSim p = false := by
      rcases hval with h | h
      · rw [hs] at h; exact absurd h (by simp)
      · exact h
    simp [hsim, log_rejected_proposal]

theorem processFiles_all_executed (ext : ExternalOracle) (l : List FPath) :
    ∀ (w : World) (acc : Nat), l.all (executedBefore w) = true →
      processFiles ext l w acc = (w, .ok acc) := by
  induction l with
  | nil => intro w acc _; rfl
  | cons p rest ih =>
    intro w acc h
    rw [List.all_cons, Bool.and_eq_true] at h
    obtain ⟨h1, h2⟩ := h
    unfold executedBefore at h1
    cases he : extract_proposal_id p.name with
    | error e =>
      rw [he] at h1
      exact absurd h1 (by simp)
    | ok pid =>
      rw [he] at h1
      have h1' : w.st.executed_proposals.contains pid = true := h1
      unfold processFiles
      rw [he]
      simp only [h1', if_true]
      exact ih w acc h2

theorem update_status_ok (fs : Fs) (dir pid c : Str) (s1 s2 : ProposalStatus)
    (hid : '_' ∉ pid)
    (hread : fsRead fs ⟨dir, statusFileName pid s1⟩ = some c) :
    update_proposal_status fs ⟨dir, statusFileName pid s1⟩ s2 =
      .ok (fsWrite (fsRemove fs ⟨dir, statusFileName pid s1⟩)
        ⟨dir, statusFileName pid s2⟩ c) := by
  unfold update_proposal_status
  simp only [extract_statusFileName pid s1 hid, fsRename, hread]

theorem statusPath_ne (dir pid : Str) {s1 s2 : ProposalStatus} (h : s1 ≠ s2) :
    (⟨dir, statusFileName pid s1⟩ : FPath) ≠ ⟨dir, statusFileName pid s2⟩ := by
  intro he
  exact statusFileName_ne pid h (congrArg FPath.name he)

/-!  Remaining claim theorems.  -/

/-- C3 (amended): only the periodic sweep performs the executed-set
membership check before dispatch — when every scanned queue file's id parses
and is already in the executed set, `process_queue` leaves the world
untouched (no engine call, no vertex) and reports zero processed files.  The
watcher path performs no such check (see the counterexample). -/
theorem C3_sweep_checks_membership (ext : ExternalOracle) (w : World)
    (h : (scanQueue w.fs).all (executedBefore w) = true) :
    process_queue ext w = (w, .ok 0) :=
  processFiles_all_executed ext (scanQueue w.fs) w 0 h

/-- C3 witness: the sweep over a queue holding only
`proposal_9_pending.dsl` with `"9"` already executed does nothing. -/
theorem C3_sweep_checks_membership_witness :
    process_queue extOk w9 = (w9, .ok 0) :=
  C3_sweep_checks_membership extOk w9 (by decide)

/-- C4 (amended): `update_proposal_status` consults only the filename, never
the current status, so it renames a file of any current status — terminal
ones included — to any requested status: the new-status file then exists and
the old-status file is gone.  Combined with the sweep's re-dispatch of every
`.dsl` file (see the counterexample), terminal statuses are not preserved. -/
theorem C4_rename_ignores_current_status (fs : Fs) (dir pid c : Str)
    (s1 s2 : ProposalStatus) (hid : '_' ∉ pid) (hne : s1 ≠ s2)
    (hread : fsRead fs ⟨dir, statusFileName pid s1⟩ = some c) :
    update_proposal_status fs ⟨dir, statusFileName pid s1⟩ s2 =
      .ok (fsWrite (fsRemove fs ⟨dir, statusFileName pid s1⟩)
        ⟨dir, statusFileName pid s2⟩ c) ∧
    fsRead (fsWrite (fsRemove fs ⟨dir, statusFileName pid s1⟩)
        ⟨dir, statusFileName pid s2⟩ c) ⟨dir, statusFileName pid s2⟩ = some c ∧
    fsRead (fsWrite (fsRemove fs ⟨dir, statusFileName pid s1⟩)
        ⟨dir, statusFileName pid s2⟩ c) ⟨dir, statusFileName pid s1⟩ = none := by
  refine ⟨update_status_ok fs dir pid c s1 s2 hid hread,
    fsRead_fsWrite_self _ _ _, ?_⟩
  rw [fsRead_fsWrite_ne _ _ (statusPath_ne dir pid hne)]
  exact fsRead_fsRemove_self _ _

/-- C4 witness: the terminal `proposal_7_rejected.dsl` is renamed to
`proposal_7_failed.dsl`. -/
theorem C4_rename_ignores_current_status_witness :
    update_proposal_status [(⟨queueDir, statusFileName (str "7") .Rejected⟩, badContent)]
        ⟨queueDir, statusFileName (str "7") .Rejected⟩ .Failed =
      .ok (fsWrite
        (fsRemove [(⟨queueDir, statusFileName (str "7") .Rejected⟩, badContent)]
          ⟨queueDir, statusFileName (str "7") .Rejected⟩)
        ⟨queueDir, statusFileName (str "7") .Failed⟩ badContent) ∧
    fsRead (fsWrite
        (fsRemove [(⟨queueDir, statusFileName (str "7") .Rejected⟩, badContent)]
          ⟨queueDir, statusFileName (str "7") .Rejected⟩)
        ⟨queueDir, statusFileName (str "7") .Failed⟩ badContent)
      ⟨queueDir, statusFileName (str "7") .Failed⟩ = some badContent ∧
    fsRead (fsWrite
        (fsRemove [(⟨queueDir, statusFileName (str "7") .Rejected⟩, badContent)]
          ⟨queueDir, statusFileName (str "7") .Rejected⟩)
        ⟨queueDir, statusFileName (str "7") .Failed⟩ badContent)
      ⟨queueDir, statusFileName (str "7") .Rejected⟩ = none :=
  C4_rename_ignores_current_status
    [(⟨queueDir, statusFileName (str "7") .Rejected⟩, badContent)]
    queueDir (str "7") badContent .Rejected .Failed
    (by decide) (by decide) (by decide)

/-- C6 (amended): for a convention-suffixed file `proposal_<id>_<s₁>.dsl`
(underscore-free id) a successful transition to `s₂` leaves exactly one file
at the canonical `proposal_<id>_<s₂>.dsl` name and none at the prior one;
for an unsuffixed `proposal_<id>.dsl` the extracted identifier is
`<id>.dsl`, so the produced filename is `proposal_<id>.dsl_<s>.dsl` rather
than one matching the convention. -/
theorem C6_transition_file_accounting (fs : Fs) (dir pid c : Str)
    (s1 s2 : ProposalStatus) (hid : '_' ∉ pid) (hne : s1 ≠ s2)
    (hread : fsRead fs ⟨dir, statusFileName pid s1⟩ = some c) :
    (update_proposal_status fs ⟨dir, statusFileName pid s1⟩ s2 =
      .ok (fsWrite (fsRemove fs ⟨dir, statusFileName pid s1⟩)
        ⟨dir, statusFileName pid s2⟩ c) ∧
      (fsWrite (fsRemove fs ⟨dir, statusFileName pid s1⟩)
        ⟨dir, statusFileName pid s2⟩ c).countP
        (fun e => decide (e.1 = (⟨dir, statusFileName pid s2⟩ : FPath))) = 1 ∧
      (fsWrite (fsRemove fs ⟨dir, statusFileName pid s1⟩)
        ⟨dir, statusFileName pid s2⟩ c).countP
        (fun e => decide (e.1 = (⟨dir, statusFileName pid s1⟩ : FPath))) = 0) ∧
    extract_proposal_id (str "proposal_" ++ pid ++ str ".dsl") =
      .ok (pid ++ str ".dsl") := by
  refine ⟨⟨update_status_ok fs dir pid c s1 s2 hid hread, ?_, ?_⟩,
    extract_unsuffixed pid hid⟩
  · unfold fsWrite
    rw [List.countP_append, countP_fsRemove_self]
    simp
  · unfold fsWrite
    rw [List.countP_append,
      countP_fsRemove_zero _ _ _ (countP_fsRemove_self fs _)]
    simp [statusFileName_ne pid (Ne.symm hne)]

/-- C6 witness: a suffixed pending→executing transition for id 42, and the
unsuffixed extraction for the same id. -/
theorem C6_transition_file_accounting_witness :
    (update_proposal_status [(⟨queueDir, statusFileName (str "42") .Pending⟩, goodContent)]
        ⟨queueDir, statusFileName (str "42") .Pending⟩ .Executing =
      .ok (fsWrite
        (fsRemove [(⟨queueDir, statusFileName (str "42") .Pending⟩, goodContent)]
          ⟨queueDir, statusFileName (str "42") .Pending⟩)
        ⟨queueDir, statusFileName (str "42") .Executing⟩ goodContent) ∧
      (fsWrite
        (fsRemove [(⟨queueDir, statusFileName (str "42") .Pending⟩, goodContent)]
          ⟨queueDir, statusFileName (str "42") .Pending⟩)
        ⟨queueDir, statusFileName (str "42") .Executing⟩ goodContent).countP
        (fun e => decide (e.1 = (⟨queueDir, statusFileName (str "42") .Executing⟩ : FPath))) = 1 ∧
      (fsWrite
        (fsRemove [(⟨queueDir, statusFileName (str "42") .Pending⟩, goodContent)]
          ⟨queueDir, statusFileName (str "42") .Pending⟩)
        ⟨queueDir, statusFileName (str "42") .Executing⟩ goodContent).countP
        (fun e => decide (e.1 = (⟨queueDir, statusFileName (str "42") .Pending⟩ : FPath))) = 0) ∧
    extract_proposal_id (str "proposal_" ++ str "42" ++ str ".dsl") =
      .ok (str "42" ++ str ".dsl") :=
  C6_transition_file_accounting
    [(⟨queueDir, statusFileName (str "42") .Pending⟩, goodContent)]
    queueDir (str "42") goodContent .Pending .Executing
    (by decide) (by decide) (by decide)

/-- C7 (amended): the sweep's filter is exactly "ends with `.dsl`" (the
`_pending.dsl` disjunct is subsumed), so the scan returns every `.dsl` file
of the queue directory whatever status its name encodes, and the result is
ordered lexicographically by filename — not by numeric identifier. -/
theorem C7_scan_filter_and_order (name : Str) (fs : Fs) (p : FPath) :
    sweepFilter name = endsWith name (str ".dsl") ∧
    (p ∈ scanQueue fs ↔
      p ∈ fs.map Prod.fst ∧ p.dir = queueDir ∧
        endsWith p.name (str ".dsl") = true) ∧
    (scanQueue fs).Pairwise (fun a b => strLe a.name b.name = true) := by
  refine ⟨sweepFilter_eq_dsl name, ?_, sortPaths_pairwise _⟩
  unfold scanQueue
  rw [(sortPaths_perm _).mem_iff]
  unfold listQueueFiles
  rw [List.mem_filter]
  rw [sweepFilter_eq_dsl]
  simp [and_assoc]

/-- C5 (amended): processing a single pending queue file whose payload fails
validation ends with the file renamed to `proposal_<id>_failed.dsl` — the
coordinator logs the rejection and returns a `Validation` error without
renaming, and the sweep then marks the file failed — with a line appended to
the rejection log carrying the id and the generic reason
`Proposal validation failed` (not the specific missing-field reason, which
only reaches the tracing log), the state document (ledger and executed set)
unchanged, no stored output, and the engine never invoked in execution mode
(at most the validation dry run fires). -/
theorem C5_validation_failure_end_state (ext : ExternalOracle) (w : World)
    (pid content : Str)
    (hfs : w.fs = [(⟨queueDir, statusFileName pid .Pending⟩, content)])
    (hpid : '_' ∉ pid)
    (hvalid : (structuralOk content &&
      ext.covmSim ⟨queueDir, statusFileName pid .Pending⟩) = false)
    (hexec : w.st.executed_proposals.contains pid = false) :
    (process_queue ext w).2 = .ok 0 ∧
    (process_queue ext w).1.fs =
      [(⟨queueDir, statusFileName pid .Failed⟩, content)] ∧
    (process_queue ext w).1.rejectedLog =
      w.rejectedLog ++ [(pid, str "Proposal validation failed")] ∧
    (process_queue ext w).1.st = w.st ∧
    (process_queue ext w).1.dagLog = w.dagLog ∧
    (process_queue ext w).1.outputs = w.outputs ∧
    ((process_queue ext w).1.events = w.events ∨
      (process_queue ext w).1.events =
        w.events ++ [.engineValidate ⟨queueDir, statusFileName pid .Pending⟩]) := by
  have hread : fsRead w.fs ⟨queueDir, statusFileName pid .Pending⟩ =
      some content := by
    rw [hfs, fsRead_cons_pair, if_pos rfl]
  have hscan : scanQueue w.fs = [⟨queueDir, statusFileName pid .Pending⟩] := by
    rw [hfs]
    unfold scanQueue listQueueFiles
    simp [sweepFilter_statusFileName, sortPaths, insertSorted]
  have hextract : extract_proposal_id
      (FPath.mk queueDir (statusFileName pid .Pending)).name = .ok pid :=
    extract_statusFileName pid .Pending hpid
  have hinv := execute_invalid ext w ⟨queueDir, statusFileName pid .Pending⟩
    hread hvalid
  have hupd : update_proposal_status w.fs
      ⟨queueDir, statusFileName pid .Pending⟩ .Failed =
      .ok [(⟨queueDir, statusFileName pid .Failed⟩, content)] := by
    rw [update_status_ok w.fs queueDir pid content .Pending .Failed hpid hread]
    rw [hfs]
    simp [fsRemove, fsWrite]
  have hmain : process_queue ext w =
      ({ w with
          fs := [(⟨queueDir, statusFileName pid .Failed⟩, content)],
          rejectedLog := w.rejectedLog ++
            [(pid, str "Proposal validation failed")],
          events := w.events ++
            (if structuralOk content then
              [.engineValidate ⟨queueDir, statusFileName pid .Pending⟩]
             else []) },
       .ok 0) := by
    unfold process_queue
    rw [hscan]
    unfold processFiles
    rw [hextract]
    simp only [proposalIdOf, hextract] at hinv
    simp only [hexec, Bool.false_eq_true, if_false, hinv, hupd]
    rfl
  rw [hmain]
  refine ⟨rfl, rfl, rfl, rfl, rfl, rfl, ?_⟩
  cases hs : structuralOk content with
  | false => left; simp [hs]
  | true => right; simp [hs]

/-- C5 witness: Scenario B's world — `proposal_7_pending.dsl` whose payload
lacks the required `title:` field. -/
theorem C5_validation_failure_end_state_witness :
    (process_queue extOk w7pend).2 = .ok 0 ∧
    (process_queue extOk w7pend).1.fs =
      [(⟨queueDir, statusFileName (str "7") .Failed⟩, noTitleContent)] ∧
    (process_queue extOk w7pend).1.rejectedLog =
      w7pend.rejectedLog ++ [(str "7", str "Proposal validation failed")] ∧
    (process_queue extOk w7pend).1.st = w7pend.st ∧
    (process_queue extOk w7pend).1.dagLog = w7pend.dagLog ∧
    (process_queue extOk w7pend).1.outputs = w7pend.outputs ∧
    ((process_queue extOk w7pend).1.events = w7pend.events ∨
      (process_queue extOk w7pend).1.events = w7pend.events ++
        [.engineValidate ⟨queueDir, statusFileName (str "7") .Pending⟩]) :=
  C5_validation_failure_end_state extOk w7pend (str "7") noTitleContent
    (by decide) (by decide) (by decide) (by decide)

/-- C10: false of the code — for a proposal file outside the queue
directory, `execute_proposal_file` indeed performs no status rename and no
archival copy, but on engine success it calls `state::add_executed_proposal`
(executor.rs:77), which re-locks the held `STATE` mutex inside `save_state()`
and never returns: no vertex is appended, no output is stored, and the call
never returns a result, so the proposal is never committed to the ledger. -/
theorem C10_outside_queue_deadlock (ext : ExternalOracle) (w : World)
    (p : FPath) (content : Str) (r : CovmResult) (force : Bool)
    (hdir : ¬ p.dir = queueDir)
    (hread : fsRead w.fs p = some content)
    (hval : force = true ∨ (structuralOk content = true ∧ ext.covmSim p = true))
    (hrun : ext.covmRun p = .ok r)
    (hstatus : r.status_code = 0) :
    execute_proposal_file_m ext w p force = none := by
  have hcore : ∀ w1 : World, w1.fs = w.fs →
      execute_core_m ext w1 p (proposalIdOf p.name) = none := by
    intro w1 hf
    unfold execute_core_m run_covm
    simp [hdir, hrun, hf, hread, hstatus, add_executed_proposal_m,
      save_state_m]
  rcases hval with hf | ⟨hsok, hsim⟩
  · subst hf
    have hx : execute_proposal_file_m ext w p true = execute_core_m ext w p
        (proposalIdOf p.name) := by
      unfold execute_proposal_file_m
      simp [fsExists, hread]
    rw [hx]
    exact hcore w rfl
  · cases hforce : force with
    | true =>
      have hx : execute_proposal_file_m ext w p true = execute_core_m ext w p
          (proposalIdOf p.name) := by
        unfold execute_proposal_file_m
        simp [fsExists, hread]
      rw [hx]
      exact hcore w rfl
    | false =>
      have hx : execute_proposal_file_m ext w p false =
          execute_core_m ext
            { w with events := w.events ++ [.engineValidate p] } p
            (proposalIdOf p.name) := by
        unfold execute_proposal_file_m
        rw [validate_proposal_eq ext w p hread]
        simp [fsExists, hread, hsok, hsim]
      rw [hx]
      exact hcore _ rfl

/-- C10 witness: an always-succeeding engine on `tmp/proposal_5_pending.dsl`
(outside the queue directory), forced execution — the call never returns. -/
theorem C10_outside_queue_deadlock_witness :
    execute_proposal_file_m extOk wOut pOutside true = none :=
  C10_outside_queue_deadlock extOk wOut pOutside goodContent
    { status_code := 0, vertex_id := none, output := [] } true
    (by decide) (by decide) (Or.inl rfl) rfl rfl

end Icn
